import Mathlib

/-!
Verification development for the smttask repository (src/smttask/base.py).

The Python data universe is shallowly embedded as the inductive type `PyVal`;
the functions `describe` (base.py lines 335-415), `cast` (lines 59-71),
`TaskBase.__new__`/`__init__` (lines 131-207), `TaskBase.desc` (lines 211-219),
`TaskBase.get_input_descs` (lines 229-283) and `TaskBase.load_inputs`
(lines 285-292) are translated branch by branch into Lean definitions below.
Machine-level caveats of the translation are documented at each definition.
-/

/-- A Python dictionary key, as far as the source distinguishes them: `describe`
applies `str(k)` to every mapping key, so the embedding keeps string keys and
integer keys (two distinct key objects may stringify to the same string). -/
inductive PyKey where
  | s (a : String)
  | i (n : Int)
deriving DecidableEq, Repr

/-- Python `str(k)` on a key. -/
def PyKey.pyStr : PyKey → String
  | .s t => t
  | .i n => toString n

/-- The universe of Python values that the translated functions dispatch on.
Each constructor corresponds to one `isinstance` class used by the source:
`num`/`str` are `PlainArg = (Number, str)` (numbers are modelled by `Int`),
`seq` is `collections.Sequence` (list/tuple), `arr` is `numpy.ndarray`
(modelled one-dimensional, since `describe` only applies `tolist()`),
`map` is `collections.Mapping` (dict / ParameterSet / AttrDict: an
insertion-ordered association list, Python 3.7 dict semantics),
`iterOther` is a non-Sequence `collections.Iterable` (set, generator, ...),
`task` is a `TaskBase` instance (its `__qualname__` and its `input_descs`),
`typ` is a `type` object carrying its `repr`, `file` is the repository's
`File` wrapper, `datafile` is a `sumatra` `DataFile` handle carrying its
`full_path`, the three `dist` constructors are the special-cased
`scipy.stats._multivariate` objects, and `other` is any remaining
non-iterable value, carrying its `repr`. The constructors are pairwise
disjoint classes, so the `if/elif` order of the source is immaterial for
the dispatch (it is recorded in comments where it could matter). -/
inductive PyVal where
  | num (n : Int)
  | str (s : String)
  | pynone
  | seq (items : List PyVal)
  | arr (items : List Int)
  | map (entries : List (PyKey × PyVal))
  | iterOther (rep : String) (items : List PyVal)
  | task (taskname : String) (inputDescs : List (PyKey × PyVal))
  | typ (rep : String)
  | file (filename : String)
  | datafile (fullPath : String)
  | distGen
  | distFrozen (mean cov : String)
  | distOther (rep : String)
  | other (rep : String)

/-- Python dict insertion `d[k] = v` on an association list: an existing key
keeps its position and gets the new value; a new key is appended. -/
def dInsert {κ α : Type} [DecidableEq κ] (k : κ) (v : α) :
    List (κ × α) → List (κ × α)
  | [] => [(k, v)]
  | (k', v') :: rest =>
    if k' = k then (k', v) :: rest else (k', v') :: dInsert k v rest

/-- Building a Python dict from a sequence of key/value pairs (dict literal,
dict comprehension, `{**a, **b}` merge): left-to-right insertion, so a
duplicated key keeps its first position and its last value. -/
def pyDict {κ α : Type} [DecidableEq κ] (l : List (κ × α)) : List (κ × α) :=
  l.foldl (fun acc kv => dInsert kv.1 kv.2 acc) []

/-- Association-list lookup (`d[k]` / `k in d` on a Python dict). -/
def alookup {κ α : Type} [DecidableEq κ] (k : κ) : List (κ × α) → Option α
  | [] => none
  | (k', v) :: rest => if k' = k then some v else alookup k rest

mutual
/-- The value computed by `describe` (base.py lines 335-415), branch by branch:
PlainArg and None are returned unchanged (line 352); a Sequence becomes the
list of descriptions of its items (line 354); `ndarray.tolist()` (line 363);
a Mapping becomes `ParameterSet(\x7bstr(k): describe(u) ...\x7d)`, i.e. a dict
built from the stringified keys and described values (line 365); any other
Iterable is returned unchanged (line 378); a `TaskBase` is replaced by its
`desc` property, the ParameterSet with keys taskname and inputs where the
inputs entry is `describe(self.input_descs)` (lines 211-219 and 382); a type
becomes its `repr` string (line 384); a `File` becomes its tagged record
(lines 49-54 and 389); `describe` of a `DataFile` raises (see `descFails`),
so the value given here for `datafile` is never exposed through `describe`;
the scipy multivariate-normal objects get their special-cased strings
(lines 395-403), other distribution objects and unrecognized values fall
back to their `repr` (lines 402 and 411). -/
def describeT : PyVal → PyVal
  | .num n => .num n
  | .str s => .str s
  | .pynone => .pynone
  | .seq items => .seq (describeTList items)
  | .arr items => .seq (items.map PyVal.num)
  | .map entries => .map (pyDict (describeTEntries entries))
  | .iterOther rep items => .iterOther rep items
  | .task n ds =>
    .map [(.s "taskname", .str n), (.s "inputs", .map (pyDict (describeTEntries ds)))]
  | .typ rep => .str rep
  | .file fn => .map [(.s "type", .str "File"), (.s "filename", .str fn)]
  | .datafile _ => .pynone
  | .distGen => .str "multivariate_normal"
  | .distFrozen m c =>
    .str ("multivariate_normal(mean=" ++ m ++ ", cov=" ++ c ++ ")")
  | .distOther rep => .str rep
  | .other rep => .str rep
/-- Item-wise description of a Python list/tuple (the list comprehension of
base.py line 355). -/
def describeTList : List PyVal → List PyVal
  | [] => []
  | v :: vs => describeT v :: describeTList vs
/-- Entry-wise description of a mapping's items: `str(k)` on the key,
`describe` on the value (the dict comprehension of base.py line 367),
before the dict itself collapses duplicate stringified keys. -/
def describeTEntries : List (PyKey × PyVal) → List (PyKey × PyVal)
  | [] => []
  | (k, v) :: rest => (PyKey.s k.pyStr, describeT v) :: describeTEntries rest
end

mutual
/-- Whether `describe` raises on this value. The only raising branch is the
`DataFile` one (base.py line 392): `File.desc(v.full_path)` binds the string
`v.full_path` as `self`, and `self.filename` (line 50) then raises
AttributeError, since a string has no `filename` attribute. The exception
propagates out of the recursive calls made for Sequence items, Mapping
values and a task's `input_descs` values; the other branches (including the
Iterable one, which returns `v` without recursing) cannot raise. -/
def descFails : PyVal → Bool
  | .seq items => descFailsList items
  | .map entries => descFailsEntries entries
  | .task _ ds => descFailsEntries ds
  | .datafile _ => true
  | _ => false
/-- Failure of `describe` somewhere in a list of items. -/
def descFailsList : List PyVal → Bool
  | [] => false
  | v :: vs => descFails v || descFailsList vs
/-- Failure of `describe` somewhere among a mapping's values. -/
def descFailsEntries : List (PyKey × PyVal) → Bool
  | [] => false
  | (_, v) :: rest => descFails v || descFailsEntries rest
end

/-- The function `describe` of base.py lines 335-415: the described value,
or `none` for the AttributeError raised on `DataFile` inputs (see
`descFails`). -/
def describe (v : PyVal) : Option PyVal :=
  if descFails v then none else some (describeT v)

/-- The warnings `describe` can emit: the reserved mapping key warning of
line 374, the unsupported-Iterable warning of line 379, the dynamically
generated type warning of line 387, the distribution warning of line 402
and the untested-type warning of line 412. -/
inductive Warn where
  | typeKey
  | unsupportedIterable (rep : String)
  | dynamicType (rep : String)
  | distUntested (rep : String)
  | untestedType (rep : String)
deriving DecidableEq, Repr

/-- Python `'<locals>' in s` (base.py line 386). -/
def hasLocals (s : String) : Bool := (s.splitOn "<locals>").length != 1

/-- The loop of base.py lines 368-376: for each key of the resulting
ParameterSet (the dict built from the stringified keys), warn when
`k.lower() == "type"`. -/
def typeKeyWarns (described : List (PyKey × PyVal)) : List Warn :=
  (pyDict described).filterMap
    (fun kv => if kv.1.pyStr.toLower == "type" then some .typeKey else none)

mutual
/-- The warnings emitted by `describe`, in evaluation order (for a value on
which `describe` does not raise; on a raising value Python would emit the
prefix produced before the raise). The Mapping branch first describes the
values (emitting their warnings) and then checks the produced keys for the
reserved key `type`; the `TaskBase` branch does the same for
`describe(self.input_descs)`; the Iterable, dynamically-generated-type,
untested-distribution and untested-type branches emit their single warning;
every other branch emits none. -/
def descWarns : PyVal → List Warn
  | .seq items => descWarnsList items
  | .map entries => descWarnsEntries entries ++ typeKeyWarns (describeTEntries entries)
  | .task _ ds => descWarnsEntries ds ++ typeKeyWarns (describeTEntries ds)
  | .iterOther rep _ => [.unsupportedIterable rep]
  | .typ rep => if hasLocals rep then [.dynamicType rep] else []
  | .distOther rep => [.distUntested rep]
  | .other rep => [.untestedType rep]
  | _ => []
/-- Warnings of a list of items, in order. -/
def descWarnsList : List PyVal → List Warn
  | [] => []
  | v :: vs => descWarns v ++ descWarnsList vs
/-- Warnings of a mapping's values, in order. -/
def descWarnsEntries : List (PyKey × PyVal) → List Warn
  | [] => []
  | (_, v) :: rest => descWarns v ++ descWarnsEntries rest
end

/-- C10: `describe(None)` returns None unchanged (base.py line 352 treats
`v is None` together with PlainArg), reaches no fallback branch and emits
no warning. -/
theorem describe_none_passthrough :
    describe PyVal.pynone = some PyVal.pynone ∧ descWarns PyVal.pynone = [] := by
  constructor
  · simp [describe, descFails, describeT]
  · simp [descWarns]

/-- C2 counterexample: an unrecognized non-Sequence iterable (for example the
set written `\x7b1, 2\x7d`) is *not* replaced by its default textual
representation: the Iterable branch of base.py line 378 returns the value
itself unchanged, so the claim that `describe` returns the value's default
textual representation for every unsupported kind is false at this input. -/
theorem describe_iterable_counterexample :
    describe (PyVal.iterOther "{1, 2}" [PyVal.num 1, PyVal.num 2])
      = some (PyVal.iterOther "{1, 2}" [PyVal.num 1, PyVal.num 2]) ∧
    describe (PyVal.iterOther "{1, 2}" [PyVal.num 1, PyVal.num 2])
      ≠ some (PyVal.str "{1, 2}") := by
  constructor
  · simp [describe, descFails, describeT]
  · simp [describe, descFails, describeT]

/-- C2 amended: `describe` never fails on unrecognized values and always
emits a non-fatal warning, but only unrecognized *non-iterable* values are
replaced by their default textual representation (base.py line 415);
an unrecognized non-Sequence iterable is returned unchanged, not as its
textual representation (line 381). -/
theorem describe_fallback_behavior (rep : String) (items : List PyVal) :
    describe (PyVal.other rep) = some (PyVal.str rep) ∧
    descWarns (PyVal.other rep) = [Warn.untestedType rep] ∧
    describe (PyVal.iterOther rep items) = some (PyVal.iterOther rep items) ∧
    descWarns (PyVal.iterOther rep items) = [Warn.unsupportedIterable rep] := by
  refine ⟨?_, ?_, ?_, ?_⟩ <;> simp [describe, descFails, describeT, descWarns]

/-- The Python types that appear as task input type annotations in the
source's usage (`inputs = {'a': int, 'b': (str, float)}`, base.py line 79).
Only the membership tests actually performed by the translated code matter;
numbers being modelled by `Int`, the numeric types are not distinguished. -/
inductive PyType where
  | intT
  | floatT
  | strT
  | dictT
  | listT
  | fileT
deriving DecidableEq, Repr

/-- A declared accepted type for an input: a single type or a (possibly
nested) tuple of types, as accepted by `cast` (base.py line 60) and
`isinstance`. -/
inductive TypeSpec where
  | single (t : PyType)
  | tup (ts : List TypeSpec)

/-- Python `isinstance(v, t)` for a single type of the embedded universe. -/
def isinstOne : PyVal → PyType → Bool
  | .num _, .intT => true
  | .num _, .floatT => true
  | .str _, .strT => true
  | .map _, .dictT => true
  | .seq _, .listT => true
  | .file _, .fileT => true
  | _, _ => false

mutual
/-- Python `isinstance(v, spec)`, where a tuple (possibly nested) of types
succeeds when any member matches. -/
def isinst (v : PyVal) : TypeSpec → Bool
  | .single t => isinstOne v t
  | .tup ts => isinstAny v ts
/-- Disjunction of `isinst` over the members of a type tuple. -/
def isinstAny (v : PyVal) : List TypeSpec → Bool
  | [] => false
  | t :: ts => isinst v t || isinstAny v ts
end

/-- Outcome of `cast` (base.py lines 59-71). `ok` is a successful
conversion; `typeEr` is the `TypeError("Unable to cast ...")` raised at
line 68 (the real message interpolates the value and the target types);
`unboundLocal` is the `UnboundLocalError` raised by the non-tuple branch:
line 71 returns `T(value)`, but `T` is the for-loop variable of the *tuple*
branch, which is never assigned in a call that takes the non-tuple branch,
so looking it up raises. -/
inductive CastResult where
  | ok (v : PyVal)
  | typeEr (msg : String)
  | unboundLocal

namespace SmtTask

mutual
/-- The function `cast` of base.py lines 59-71, translated with its control
flow intact: the tuple branch tries `cast(value, T)` for each member `T`,
catching only `ValueError` and `TypeError` (line 64) and raising the
`Unable to cast` TypeError when the loop ends; the non-tuple branch
evaluates `T(value)` with `T` unbound and therefore raises
UnboundLocalError - which the tuple branch does *not* catch, so it
propagates. -/
def cast (value : PyVal) : TypeSpec → CastResult
  | .single _ => .unboundLocal
  | .tup ts => castLoop value ts
/-- The `for T in totype` loop of base.py lines 61-67, with the uncaught
propagation of non-(ValueError, TypeError) exceptions. -/
def castLoop (value : PyVal) : List TypeSpec → CastResult
  | [] => .typeEr "Unable to cast"
  | t :: ts =>
    match cast value t with
    | .ok r => .ok r
    | .typeEr _ => castLoop value ts
    | .unboundLocal => .unboundLocal
end

end SmtTask

/-- C5: the code of `cast` never attempts any conversion - for every value
and every type tuple whose first candidate is a plain type, the recursive
call takes the non-tuple branch, which evaluates the unassigned loop
variable `T` and raises UnboundLocalError; the exception is not among the
caught (ValueError, TypeError), so it propagates and `cast` neither returns
a converted value nor raises the intended casting error. -/
theorem cast_always_unbound_local (v : PyVal) (t : PyType) (rest : List TypeSpec) :
    SmtTask.cast v (.tup (.single t :: rest)) = .unboundLocal := by
  simp [SmtTask.cast, SmtTask.castLoop]

/-- One parameter of the `_run` signature: its name and its default value,
if any (`inspect.signature(self._run).parameters`, base.py line 185). -/
structure SigParam where
  name : String
  default : Option PyVal

/-- The static data of a task class: its `__qualname__`, its declared
`inputs` mapping (name to accepted type, in declaration order), the
parameters of `_run` in order, and whether `_run` is a staticmethod
(base.py line 192 checks `type(self.__class__.__dict__['_run'])`). -/
structure TaskClass where
  qualname : String
  inputs : List (String × TypeSpec)
  sig : List SigParam
  runStatic : Bool

/-- The result slot of a task instance: the `NotComputed` sentinel class or
a computed value (base.py lines 56-57 and 207). -/
inductive RunResult where
  | notComputed
  | value (v : PyVal)

/-- The attributes `__init__` assigns on a new task instance (base.py lines
204-207): `taskinputs`, `_loaded_inputs`, `input_descs`, `_run_result`.
No other instance attribute is ever assigned by the source - in particular
no attribute named `_inputs`. -/
structure TaskState where
  taskinputs : List (String × PyVal)
  loadedInputs : Option (List (String × PyVal))
  inputDescs : List (String × PyVal)
  runResult : RunResult

/-- Every way `TaskBase.__init__` can end, each matching one concrete
raise/return site of base.py:
`newTask` - normal completion (lines 204-207);
`reservedReason` / `reservedCache` - the AssertionErrors of lines 153-158;
`existingAssert` - the failing `assert hasattr(params, '_inputs')` of line
161 (construction assigns `taskinputs`, never `_inputs`, so the attribute
is absent on every instance this code builds and the assert raises);
`posAndKeyword` - the TypeError of line 174;
`badParamsType` - the ValueError of line 181;
`mergeNonMapping` - the TypeError of line 184 when `{**params, ...}`
unpacks a `params` value that is not a mapping (the single-input positional
branch leaves `params` bound to the bare, non-mapping value);
`firstArgAssert` - the failing assert of line 197;
`popEmpty` - the IndexError of `required_inputs.pop(0)` on an empty list
(line 194);
`missingInputs` - the TypeError of line 199, carrying the missing names
(the source formats them as a set);
`castTypeEr` / `castUnbound` - the exceptions escaping from `cast`
(line 178);
`keyErr` - the KeyError of `self.taskinputs[name]` in `get_input_descs`
(line 244) when a declared input name is absent;
`absPathErr` - the TypeError raised by the call
`self.get_abs_input_path(θ)` (line 249): `get_abs_input_path` is defined
with the single parameter `path` (line 294), so the bound-method call
passes two arguments. -/
inductive ConstructResult where
  | newTask (st : TaskState)
  | reservedReason
  | reservedCache
  | existingAssert
  | posAndKeyword (name : String)
  | badParamsType
  | mergeNonMapping
  | firstArgAssert
  | popEmpty
  | missingInputs (names : List String)
  | castTypeEr (msg : String)
  | castUnbound
  | keyErr (name : String)
  | absPathErr

/-- Python `isinstance(θ, PlainArg)` with `PlainArg = (Number, str)`
(base.py line 17); note `None` is not a PlainArg. -/
def isPlainArg : PyVal → Bool
  | .num _ => true
  | .str _ => true
  | _ => false

/-- The method `get_input_descs` of base.py lines 229-283, on the declared
class inputs and the final `taskinputs`: each declared input name is looked
up in `taskinputs` (KeyError when absent); a PlainArg value is kept; a
`File` value is passed to `self.get_abs_input_path(θ)`, which raises a
TypeError because `get_abs_input_path` (line 294) accepts one argument and
the bound call supplies two; every other value (including nested tasks and
DataFile handles) is kept unchanged by the `else` branch of line 278. -/
def getInputDescs (clsInputs : List (String × TypeSpec))
    (tinputs : List (String × PyVal)) :
    Except ConstructResult (List (String × PyVal)) :=
  match clsInputs with
  | [] => .ok []
  | (name, _) :: rest =>
    match alookup name tinputs with
    | none => .error (.keyErr name)
    | some θ =>
      if isPlainArg θ then
        match getInputDescs rest tinputs with
        | .error e => .error e
        | .ok ds => .ok ((name, θ) :: ds)
      else
        match θ with
        | .file _ => .error .absPathErr
        | _ =>
          match getInputDescs rest tinputs with
          | .error e => .error e
          | .ok ds => .ok ((name, θ) :: ds)

/-- The required `_run` parameters: those without a default, in order
(base.py lines 186-188). -/
def requiredNames (sig : List SigParam) : List String :=
  (sig.filter (fun p => p.default.isNone)).map (fun p => p.name)

/-- The defaulted `_run` parameters with their defaults, in order
(base.py lines 189-191). -/
def defaultEntries (sig : List SigParam) : List (String × PyVal) :=
  sig.filterMap (fun p => p.default.map (fun d => (p.name, d)))

/-- Python `{**a, **b}` on string-keyed dicts (base.py lines 184 and 203). -/
def pyMerge (a b : List (String × PyVal)) : List (String × PyVal) :=
  pyDict (a ++ b)

/-- Lines 198-207 of `__init__`, with the effective required names already
computed: raise the missing-inputs TypeError when a required name is
absent from the merged mapping (the source formats the missing names as a
set; the filtered list is carried here), merge in the defaults (line 203)
and assign the four instance attributes, computing `get_input_descs`
(line 206). -/
def afterRequired (cls : TaskClass) (merged : List (String × PyVal))
    (required : List String) : ConstructResult :=
  if (required.filter (fun p => !((merged.map Prod.fst).contains p))).isEmpty then
    match getInputDescs cls.inputs (pyMerge (defaultEntries cls.sig) merged) with
    | .error e => e
    | .ok descs =>
      .newTask { taskinputs := pyMerge (defaultEntries cls.sig) merged
                 loadedInputs := none
                 inputDescs := descs
                 runResult := .notComputed }
  else .missingInputs (required.filter (fun p => !((merged.map Prod.fst).contains p)))

/-- Lines 184-207 of `__init__`, entered with `params` already resolved to
a mapping `ps`: merge `{**ps, **kwargs}` (line 184), compute the required
signature parameters (lines 185-188), drop the leading `self`/`cls` when
`_run` is not a staticmethod (lines 192-197: `pop(0)` raises IndexError on
an empty list, and the assert of line 197 fails when the first required
name is neither `self` nor `cls`), then continue with `afterRequired`. -/
def afterParams (cls : TaskClass) (ps kwargs : List (String × PyVal)) :
    ConstructResult :=
  let merged := pyMerge ps kwargs
  if cls.runStatic then afterRequired cls merged (requiredNames cls.sig)
  else
    match requiredNames cls.sig with
    | [] => .popEmpty
    | f :: rest =>
      if f == "self" || f == "cls" then afterRequired cls merged rest
      else .firstArgAssert

/-- The single-input positional branch of `__init__` (base.py lines
169-183), entered when `params` is none of None, str, dict or an instance
of the class. With exactly one declared input: a non-empty set of keyword
arguments raises the TypeError of line 174; otherwise line 176 tests
`isinstance(taskinputs, θtype)` - `taskinputs` is the (empty) keyword
dict, *not* the positional value - and on failure line 178 casts that
empty dict, letting `cast`'s exceptions propagate; if the isinstance test
or the cast succeeds, line 179 rebinds `taskinputs` but leaves `params`
bound to the bare value, so the `{**params, **taskinputs}` of line 184
raises a TypeError because the bare value is not a mapping. With any other
number of declared inputs, line 181 raises a ValueError. (`ParamsArg.bare`
never carries a mapping: a dict-like value is classified as `pdict`.) -/
def bareBranch (cls : TaskClass) (kwargs : List (String × PyVal)) :
    ConstructResult :=
  match cls.inputs with
  | [(θname, θtype)] =>
    if kwargs.length > 0 then .posAndKeyword θname
    else if isinst (.map []) θtype then .mergeNonMapping
    else
      match SmtTask.cast (.map []) θtype with
      | .unboundLocal => .castUnbound
      | .typeEr m => .castTypeEr m
      | .ok _ => .mergeNonMapping
  | _ => .badParamsType

/-- The `params` argument of `TaskBase.__init__`, classified the way lines
159-183 classify it: `pnone` is None, `pstr` a path string (resolved by the
external `build_parameters`), `pdict` a dict-like mapping with its entries,
`ptask` an instance of the same task class, and `bare` any other value. -/
inductive ParamsArg where
  | pnone
  | pstr (path : String)
  | pdict (entries : List (String × PyVal))
  | ptask (t : TaskState)
  | bare (v : PyVal)

/-- `TaskBase.__new__` plus `TaskBase.__init__` (base.py lines 131-207).
`loadParams` stands for the external `sumatra.parameters.build_parameters`,
which parses a parameter file into a mapping. The reserved-name asserts of
lines 153-158 run first; a `params` that is an instance of the class then
reaches the `assert hasattr(params, '_inputs')` of line 161, which raises
because construction assigns the attribute `taskinputs` and never
`_inputs`; None, a path and a dict resolve to a mapping and continue at
line 184; anything else takes the single-input positional branch. -/
def construct (loadParams : String → List (String × PyVal)) (cls : TaskClass)
    (params : ParamsArg) (kwargs : List (String × PyVal)) : ConstructResult :=
  if (cls.inputs.map Prod.fst).contains "reason" then .reservedReason
  else if (cls.inputs.map Prod.fst).contains "cache_result" then .reservedCache
  else
    match params with
    | .ptask _ => .existingAssert
    | .pnone => afterParams cls [] kwargs
    | .pstr path => afterParams cls (loadParams path) kwargs
    | .pdict d => afterParams cls d kwargs
    | .bare _ => bareBranch cls kwargs

/-- The statements of `__init__` that execute when `params` is already an
instance of the class (base.py lines 152-162), threading the state of that
instance through: every statement on this path only *reads* (`self.inputs`,
the isinstance test, the hasattr test) and then raises - the reserved-name
AssertionErrors of lines 153-158 or the `_inputs` AssertionError of line
161 - so the pre-existing instance is returned unmodified alongside the
outcome, and the `kwargs` and `reason` arguments are never read. -/
def initExisting (cls : TaskClass) (t : TaskState)
    (_kwargs : List (String × PyVal)) (_reason : Option String) :
    ConstructResult × TaskState :=
  if (cls.inputs.map Prod.fst).contains "reason" then (.reservedReason, t)
  else if (cls.inputs.map Prod.fst).contains "cache_result" then (.reservedCache, t)
  else (.existingAssert, t)

/-- One step of the dict comprehension in `load_inputs` (base.py lines
288-291): a `DataFile` value is loaded through the external storage
collaborator (`io.load(v.full_path)`), a `TaskBase` value is resolved by
invoking its `run()` procedure (the `Task`/`InMemoryTask` run machinery is
not part of base.py, so it is passed in as the opaque collaborator
`runTask`), and every other value - plain values, but also `File` wrapper
objects - falls to the final `else v` and passes through unchanged. -/
def resolveInput (ioLoad : String → PyVal)
    (runTask : String → List (PyKey × PyVal) → PyVal) : PyVal → PyVal
  | .datafile p => ioLoad p
  | .task n ds => runTask n ds
  | v => v

/-- The method `load_inputs` of base.py lines 285-292: when
`self._loaded_inputs` is None it is computed as the AttrDict mapping each
raw `taskinputs` entry through `resolveInput` and cached; otherwise the
cached value is returned as is. The pair returned is the updated instance
state and the method's return value. -/
def loadInputs (ioLoad : String → PyVal)
    (runTask : String → List (PyKey × PyVal) → PyVal) (st : TaskState) :
    TaskState × List (String × PyVal) :=
  match st.loadedInputs with
  | some c => (st, c)
  | none =>
    let r := st.taskinputs.map (fun kv => (kv.1, resolveInput ioLoad runTask kv.2))
    ({ st with loadedInputs := some r }, r)

/-- A concrete task class mirroring the docstring example of base.py lines
78-84: two declared inputs, a static `_run(a, b=4)`. -/
def mulClass : TaskClass :=
  { qualname := "MyTask"
    inputs := [("a", .single .intT), ("b", .tup [.single .strT, .single .floatT])]
    sig := [⟨"a", none⟩, ⟨"b", some (.num 4)⟩]
    runStatic := true }

/-- A concrete, fully constructed instance of `mulClass`. -/
def tInst : TaskState :=
  { taskinputs := [("a", .num 3), ("b", .num 4)]
    loadedInputs := none
    inputDescs := [("a", .num 3), ("b", .num 4)]
    runResult := .notComputed }

/-- C4: re-wrapping is not an identity short-circuit - at the concrete input
`MyTask(t)` with `t` an existing `MyTask` instance, `__new__` returns `t`
but the init of the pre-existing instance reaches
`assert hasattr(params, '_inputs')` (base.py line 161), which fails because
construction assigns `taskinputs` and never `_inputs`; the call raises
AssertionError instead of returning `t`. -/
theorem construct_existing_assertion_error :
    construct (fun _ => []) mulClass (.ptask tInst) [("a", .num 9)]
      = .existingAssert := by
  rfl

/-- C9: the pre-existing-instance path of `__init__` performs no write to
the instance - its state comes back exactly as it went in, and the keyword
overrides and `reason` are never read (the outcome is the same for every
`kwargs` and `reason`) - but it does not complete silently: it never
returns normally, raising one of the AssertionErrors of lines 153-161
(on a class without reserved input names, the `_inputs` assert of line
161). -/
theorem init_existing_frame (cls : TaskClass) (t : TaskState)
    (kwargs : List (String × PyVal)) (reason : Option String) :
    (initExisting cls t kwargs reason).2 = t ∧
    (∀ st, (initExisting cls t kwargs reason).1 ≠ .newTask st) ∧
    (initExisting cls t kwargs reason) = initExisting cls t [] none := by
  refine ⟨?_, fun st => ?_, rfl⟩ <;> unfold initExisting <;>
    split <;> first | (split <;> simp) | simp

/-- A concrete task class with a single declared input `a : int` and a
static `_run(a)`. -/
def oneIntClass : TaskClass :=
  { qualname := "Square"
    inputs := [("a", .single .intT)]
    sig := [⟨"a", none⟩]
    runStatic := true }

/-- C7: at the concrete input `Square(5)` - a single-input task class given
a bare positional value - construction does not bind 5 to the input `a`:
line 176 tests the *empty keyword dict* `taskinputs` instead of `params`,
line 178 then casts that empty dict, and `cast` raises UnboundLocalError
(see `cast_always_unbound_local`), so the call crashes and the positional
value is discarded. The multi-input half of the claim does hold: a bare
positional value for the two-input class raises the ValueError of line
181. -/
theorem construct_bare_positional_eval :
    construct (fun _ => []) oneIntClass (.bare (.num 5)) [] = .castUnbound ∧
    construct (fun _ => []) mulClass (.bare (.num 5)) [] = .badParamsType := by
  constructor <;> rfl

/-- Looking a key up in an association list after mapping a function over
the values commutes with the lookup. -/
theorem alookup_map {κ α β : Type} [DecidableEq κ] (h : α → β) (k : κ) :
    ∀ l : List (κ × α),
      alookup k (l.map (fun kv => (kv.1, h kv.2))) = (alookup k l).map h := by
  intro l
  induction l with
  | nil => rfl
  | cons a t ih =>
    by_cases hk : a.1 = k
    · simp [alookup, hk]
    · simp [alookup, hk, ih]

/-- A PlainArg value is passed through untouched by `resolveInput` (it is
neither a DataFile nor a task). -/
theorem resolveInput_plain (f : String → PyVal)
    (g : String → List (PyKey × PyVal) → PyVal) (v : PyVal)
    (hv : isPlainArg v = true) : resolveInput f g v = v := by
  cases v <;> simp_all [isPlainArg, resolveInput]

/-- A concrete task instance state whose raw inputs hold a plain value and
a `File` reference, with an empty `_loaded_inputs` cache. -/
def fileInputState : TaskState :=
  { taskinputs := [("x", .num 3), ("f", .file "data.txt")]
    loadedInputs := none
    inputDescs := []
    runResult := .notComputed }

/-- C8 counterexample: with a storage collaborator that returns None for
every path, `load_inputs` on an instance whose input `f` is the File
reference `File("data.txt")` returns that File object itself, not the
value loaded by the collaborator - `load_inputs` (base.py line 288) only
loads `DataFile` handles, and a `File` wrapper falls to the `else v`
branch, so the claim that file-reference inputs are loaded through the
storage collaborator is false at this input. -/
theorem load_inputs_file_counterexample :
    alookup "f"
        (loadInputs (fun _ => PyVal.pynone) (fun _ _ => PyVal.pynone) fileInputState).2
      = some (PyVal.file "data.txt") ∧
    alookup "f"
        (loadInputs (fun _ => PyVal.pynone) (fun _ _ => PyVal.pynone) fileInputState).2
      ≠ some ((fun _ => PyVal.pynone) "data.txt") := by
  constructor
  · rfl
  · simp [loadInputs, fileInputState, resolveInput, alookup]

/-- The amended contract of `load_inputs` for an instance whose
`_loaded_inputs` cache is empty: the returned mapping sends each raw input
through `resolveInput` (DataFile handles loaded through the storage
collaborator, nested tasks resolved by their run procedure, every other
value - plain values and also File references - passed through unchanged);
the result is cached on the instance, the raw inputs stay untouched, and
every later call, with whatever collaborators, returns the cached mapping
and the same state without resolving anything. -/
def loadInputsSpec (f : String → PyVal)
    (g : String → List (PyKey × PyVal) → PyVal) (st : TaskState) : Prop :=
  (loadInputs f g st).2
      = st.taskinputs.map (fun kv => (kv.1, resolveInput f g kv.2)) ∧
  (loadInputs f g st).1.loadedInputs = some (loadInputs f g st).2 ∧
  (loadInputs f g st).1.taskinputs = st.taskinputs ∧
  (∀ f' g', loadInputs f' g' (loadInputs f g st).1
      = ((loadInputs f g st).1, (loadInputs f g st).2)) ∧
  (∀ k p, alookup k st.taskinputs = some (.datafile p) →
      alookup k (loadInputs f g st).2 = some (f p)) ∧
  (∀ k n ds, alookup k st.taskinputs = some (.task n ds) →
      alookup k (loadInputs f g st).2 = some (g n ds)) ∧
  (∀ k v, alookup k st.taskinputs = some v → isPlainArg v = true →
      alookup k (loadInputs f g st).2 = some v)

/-- C8 amended: on a task instance with an empty cache, `load_inputs`
materializes every input (plain values and File references unchanged,
DataFile handles through the storage collaborator, nested tasks through
their run procedure), memoizes the result on the instance, and every later
call returns the cached result without recomputing. -/
theorem load_inputs_resolution_memoized (f : String → PyVal)
    (g : String → List (PyKey × PyVal) → PyVal) (st : TaskState)
    (h : st.loadedInputs = none) : loadInputsSpec f g st := by
  have hl : loadInputs f g st
      = (⟨st.taskinputs,
          some (st.taskinputs.map (fun kv => (kv.1, resolveInput f g kv.2))),
          st.inputDescs, st.runResult⟩,
         st.taskinputs.map (fun kv => (kv.1, resolveInput f g kv.2))) := by
    unfold loadInputs
    rw [h]
  refine ⟨by rw [hl], by rw [hl], by rw [hl], fun f' g' => by rw [hl]; rfl,
    fun k p hk => ?_, fun k n ds hk => ?_, fun k v hk hv => ?_⟩ <;>
      rw [hl] <;> simp only [alookup_map, hk, Option.map_some]
  · rfl
  · rfl
  · simp [resolveInput_plain f g v hv]

/-- C8 witness: the amended contract holds at the concrete instance
`fileInputState`, whose cache is empty. -/
theorem load_inputs_resolution_memoized_witness :
    fileInputState.loadedInputs = none ∧
    loadInputsSpec (fun _ => PyVal.pynone) (fun _ _ => PyVal.pynone) fileInputState :=
  ⟨rfl, load_inputs_resolution_memoized _ _ _ rfl⟩

/-- The errors `get_input_descs` can raise are the KeyError of line 244 and
the broken `get_abs_input_path` TypeError of line 249 - in particular it
never raises the missing-inputs TypeError. -/
theorem getInputDescs_error_shape (ti : List (String × PyVal)) :
    ∀ (ci : List (String × TypeSpec)) (e : ConstructResult),
      getInputDescs ci ti = .error e →
      (∃ n, e = ConstructResult.keyErr n) ∨ e = ConstructResult.absPathErr := by
  intro ci
  induction ci with
  | nil => intro e he; simp [getInputDescs] at he
  | cons a rest ih =>
    intro e he
    obtain ⟨name, ty⟩ := a
    unfold getInputDescs at he
    split at he
    · exact Or.inl ⟨name, (Except.error.inj he).symm⟩
    · split at he
      · split at he
        · exact ih _ ((Except.error.inj he) ▸ (by assumption))
        · exact absurd he (by simp)
      · split at he
        · exact Or.inr (Except.error.inj he).symm
        · split at he
          · exact ih _ ((Except.error.inj he) ▸ (by assumption))
          · exact absurd he (by simp)

/-- The effective required inputs of a task class: the `_run` parameters
without defaults, minus the leading `self`/`cls` when `_run` is not a
staticmethod (base.py lines 186-197). -/
def effRequired (cls : TaskClass) : List String :=
  if cls.runStatic then requiredNames cls.sig else (requiredNames cls.sig).tail

/-- The required-name check of `afterRequired` fires exactly when some
required name is absent from the merged parameter mapping. -/
theorem afterRequired_missing_iff (cls : TaskClass)
    (merged : List (String × PyVal)) (required : List String) :
    (∃ ms, afterRequired cls merged required = .missingInputs ms) ↔
    ∃ p ∈ required, p ∉ merged.map Prod.fst := by
  unfold afterRequired
  by_cases hm :
      (required.filter (fun p => !((merged.map Prod.fst).contains p))).isEmpty
  · rw [if_pos hm]
    constructor
    · rintro ⟨ms, hms⟩
      exfalso
      cases hgid : getInputDescs cls.inputs (pyMerge (defaultEntries cls.sig) merged) with
      | error e =>
        rw [hgid] at hms
        rcases getInputDescs_error_shape _ _ _ hgid with ⟨n, rfl⟩ | rfl <;> simp at hms
      | ok descs => rw [hgid] at hms; simp at hms
    · rintro ⟨p, hp, hnp⟩
      exfalso
      rw [List.isEmpty_eq_true, List.filter_eq_nil_iff] at hm
      exact hnp (by simpa [List.contains] using hm p hp)
  · rw [if_neg hm]
    constructor
    · intro _
      have hm' :
          required.filter (fun p => !((merged.map Prod.fst).contains p)) ≠ [] := by
        simpa [List.isEmpty_eq_true] using hm
      rcases List.exists_mem_of_ne_nil _ hm' with ⟨p, hp⟩
      rw [List.mem_filter] at hp
      exact ⟨p, hp.1, by simpa [List.contains] using hp.2⟩
    · intro _
      exact ⟨_, rfl⟩

/-- C6: on the mapping path of construction (`params` a dict), for a class
with no reserved input name and a well-formed `_run` signature (a
staticmethod, or a method whose first no-default parameter is `self` or
`cls`), construction raises the missing-inputs TypeError if and only if
some effective required input - a `_run` parameter without a default - is
absent from the merged parameters-plus-keyword-arguments mapping; when all
required inputs are supplied the missing-inputs error is never raised. -/
theorem construct_missing_inputs_iff (lp : String → List (String × PyVal))
    (cls : TaskClass) (ps kwargs : List (String × PyVal))
    (hr : "reason" ∉ cls.inputs.map Prod.fst)
    (hc : "cache_result" ∉ cls.inputs.map Prod.fst)
    (hsig : cls.runStatic = true ∨
      (∃ rest, requiredNames cls.sig = "self" :: rest) ∨
      (∃ rest, requiredNames cls.sig = "cls" :: rest)) :
    (∃ ms, construct lp cls (.pdict ps) kwargs = .missingInputs ms) ↔
    ∃ p ∈ effRequired cls, p ∉ (pyMerge ps kwargs).map Prod.fst := by
  have hcr : (cls.inputs.map Prod.fst).contains "reason" = false := by
    simpa [List.contains] using hr
  have hcc : (cls.inputs.map Prod.fst).contains "cache_result" = false := by
    simpa [List.contains] using hc
  have hcon : construct lp cls (.pdict ps) kwargs = afterParams cls ps kwargs := by
    unfold construct
    rw [hcr, hcc]
    simp
  rw [hcon]
  by_cases hstat : cls.runStatic = true
  · rw [show afterParams cls ps kwargs
        = afterRequired cls (pyMerge ps kwargs) (requiredNames cls.sig) from by
      simp [afterParams, hstat]]
    rw [show effRequired cls = requiredNames cls.sig from by
      simp [effRequired, hstat]]
    exact afterRequired_missing_iff _ _ _
  · have hsf : cls.runStatic = false := by simpa using hstat
    rcases hsig with h | ⟨rest, hreq⟩ | ⟨rest, hreq⟩
    · exact absurd h hstat
    all_goals
      rw [show afterParams cls ps kwargs
            = afterRequired cls (pyMerge ps kwargs) rest from by
          simp [afterParams, hsf, hreq]]
      rw [show effRequired cls = rest from by simp [effRequired, hsf, hreq]]
      exact afterRequired_missing_iff _ _ _

/-- C6 witness: instantiating the missing-inputs equivalence at the
concrete class `mulClass` (static `_run(a, b=4)`) with empty parameters
and keyword arguments: the hypotheses hold and the equivalence follows. -/
theorem construct_missing_inputs_iff_witness :
    ("reason" ∉ mulClass.inputs.map Prod.fst) ∧
    ("cache_result" ∉ mulClass.inputs.map Prod.fst) ∧
    mulClass.runStatic = true ∧
    ((∃ ms, construct (fun _ => []) mulClass (.pdict []) [] = .missingInputs ms) ↔
      ∃ p ∈ effRequired mulClass, p ∉ (pyMerge [] []).map Prod.fst) :=
  ⟨by simp [mulClass], by simp [mulClass], rfl,
   construct_missing_inputs_iff (fun _ => []) mulClass [] []
     (by simp [mulClass]) (by simp [mulClass]) (Or.inl rfl)⟩

/-- The entry-wise description of a mapping is a pointwise map: each key is
coerced to its string form and each value described, in insertion order. -/
theorem describeTEntries_eq_map :
    ∀ l : List (PyKey × PyVal),
      describeTEntries l = l.map (fun kv => (PyKey.s kv.1.pyStr, describeT kv.2)) := by
  intro l
  induction l with
  | nil => rfl
  | cons a t ih => cases a; simp [describeTEntries, ih]

/-- Describing a mapping raises exactly when describing one of its values
raises. -/
theorem descFailsEntries_eq_any :
    ∀ l : List (PyKey × PyVal),
      descFailsEntries l = l.any (fun kv => descFails kv.2) := by
  intro l
  induction l with
  | nil => rfl
  | cons a t ih => cases a; simp [descFailsEntries, ih]

/-- `List.any` is invariant under permutation. -/
theorem perm_any {α : Type} (p : α → Bool) :
    ∀ {l1 l2 : List α}, l1.Perm l2 → l1.any p = l2.any p := by
  intro l1 l2 h
  induction h with
  | nil => rfl
  | cons x h ih => simp [ih]
  | swap x y l => simp [Bool.or_left_comm]
  | trans h1 h2 ih1 ih2 => rw [ih1, ih2]

/-- Inserting a fresh key into a Python dict appends it. -/
theorem dInsert_append {κ α : Type} [DecidableEq κ] (k : κ) (v : α) :
    ∀ l : List (κ × α), k ∉ l.map Prod.fst → dInsert k v l = l ++ [(k, v)] := by
  intro l
  induction l with
  | nil => intro _; rfl
  | cons x t ih =>
    intro hk
    simp only [List.map_cons, List.mem_cons] at hk
    push_neg at hk
    simp [dInsert, (Ne.symm hk.1), ih hk.2]

/-- Folding Python dict insertion over entries with fresh, pairwise
distinct keys appends them in order. -/
theorem foldl_dInsert_append {κ α : Type} [DecidableEq κ] :
    ∀ (l acc : List (κ × α)), ((acc ++ l).map Prod.fst).Nodup →
      l.foldl (fun acc kv => dInsert kv.1 kv.2 acc) acc = acc ++ l := by
  intro l
  induction l with
  | nil => intro acc _; simp
  | cons x t ih =>
    intro acc hn
    have hx : x.1 ∉ acc.map Prod.fst := by
      rw [List.map_append] at hn
      rcases List.nodup_append.mp hn with ⟨-, -, hdisj⟩
      exact fun hmem => (hdisj hmem) (by simp)
    rw [List.foldl_cons, dInsert_append _ _ _ hx,
      ih (acc ++ [x]) (by simpa [List.append_assoc] using hn)]
    simp

/-- Building a Python dict from entries whose keys are pairwise distinct
reproduces the entries unchanged, in order. -/
theorem pyDict_eq_self {κ α : Type} [DecidableEq κ] (l : List (κ × α))
    (hn : (l.map Prod.fst).Nodup) : pyDict l = l := by
  simpa [pyDict] using foldl_dInsert_append l [] (by simpa using hn)

/-- Association-list lookup agrees across a permutation whose keys are
pairwise distinct. -/
theorem alookup_perm {κ α : Type} [DecidableEq κ] {l1 l2 : List (κ × α)}
    (h : l1.Perm l2) :
    (l1.map Prod.fst).Nodup → ∀ k, alookup k l1 = alookup k l2 := by
  induction h with
  | nil => intro _ k; rfl
  | cons x h ih =>
    intro hn k
    have hn' : ((List.map Prod.fst _).Nodup) :=
      (List.nodup_cons.mp (by simpa using hn)).2
    by_cases hk : x.1 = k
    · simp [alookup, hk]
    · simp only [alookup, hk, if_false]
      exact ih hn' k
  | swap x y l =>
    intro hn k
    have hxy : y.1 ≠ x.1 := by
      simp only [List.map_cons, List.nodup_cons, List.mem_cons] at hn
      exact fun he => hn.1 (Or.inl he)
    by_cases h1 : y.1 = k <;> by_cases h2 : x.1 = k <;>
      simp [alookup, h1, h2]
    exact absurd (h1.trans h2.symm) hxy
  | trans h1 h2 ih1 ih2 =>
    intro hn k
    have hn2 := (h1.map Prod.fst).nodup hn
    rw [ih1 hn k, ih2 hn2 k]

/-- C1 counterexample: the two mappings with entries a to 1, b to 2
inserted in opposite orders have identical key/value pairs, yet their
canonical descriptions are not identical: the Mapping branch of `describe`
(base.py line 367) builds the output dict in the iteration order of the
input, so the two descriptions carry their entries in different orders and
are not emitted in any input-order-independent deterministic order. -/
theorem describe_map_order_counterexample :
    describe (PyVal.map [(.s "a", .num 1), (.s "b", .num 2)])
      ≠ describe (PyVal.map [(.s "b", .num 2), (.s "a", .num 1)]) := by
  simp [describe, descFails, descFailsEntries, describeT, describeTEntries,
    pyDict, dInsert, PyKey.pyStr]

/-- What `describe` guarantees for two mappings with the same key/value
pairs: describing the first either raises exactly when describing the
second raises, or yields records that are permutations of each other with
equal lookups (Python dict equality) - with keys coerced to strings and
each record keeping its own input's insertion order. -/
def mapDescribeAgreement (e1 e2 : List (PyKey × PyVal)) : Prop :=
  descFails (.map e1) = descFails (.map e2) ∧
  describeTEntries e1 = e1.map (fun kv => (PyKey.s kv.1.pyStr, describeT kv.2)) ∧
  (descFails (.map e1) = false →
    describe (.map e1) = some (.map (describeTEntries e1)) ∧
    describe (.map e2) = some (.map (describeTEntries e2)) ∧
    (describeTEntries e1).Perm (describeTEntries e2) ∧
    ∀ k, alookup k (describeTEntries e1) = alookup k (describeTEntries e2)) 

/-- C1 amended: for two mappings whose entry lists are permutations of one
another (identical key/value pairs, different insertion order) and whose
stringified keys are pairwise distinct, the descriptions are equal as
unordered string-keyed mappings - entry permutations of each other with
identical lookups - and each is emitted with keys coerced to strings in
its own insertion order, which is therefore not a canonical order. -/
theorem describe_map_perm_agree (e1 e2 : List (PyKey × PyVal))
    (hperm : e1.Perm e2)
    (hnod : (e1.map (fun kv => kv.1.pyStr)).Nodup) :
    mapDescribeAgreement e1 e2 := by
  have hsinj : Function.Injective PyKey.s := fun a b h => by
    cases h
    rfl
  have hkeys : ∀ l : List (PyKey × PyVal),
      (describeTEntries l).map Prod.fst
        = (l.map (fun kv => kv.1.pyStr)).map PyKey.s := fun l => by
    rw [describeTEntries_eq_map]
    simp [List.map_map, Function.comp]
  have hnod1 : ((describeTEntries e1).map Prod.fst).Nodup := by
    rw [hkeys]
    exact hnod.map hsinj
  have hnodstr2 : (e2.map (fun kv => kv.1.pyStr)).Nodup :=
    (hperm.map (fun kv => kv.1.pyStr)).nodup hnod
  have hnod2 : ((describeTEntries e2).map Prod.fst).Nodup := by
    rw [hkeys]
    exact hnodstr2.map hsinj
  have hfails : descFails (.map e1) = descFails (.map e2) := by
    simp only [descFails, descFailsEntries_eq_any]
    exact perm_any _ hperm
  have hpermd : (describeTEntries e1).Perm (describeTEntries e2) := by
    rw [describeTEntries_eq_map, describeTEntries_eq_map]
    exact hperm.map _
  refine ⟨hfails, describeTEntries_eq_map e1, fun hf1 => ?_⟩
  have hf2 : descFails (.map e2) = false := hfails ▸ hf1
  refine ⟨?_, ?_, hpermd, alookup_perm hpermd hnod1⟩
  · simp [describe, hf1, describeT, pyDict_eq_self _ hnod1]
  · simp [describe, hf2, describeT, pyDict_eq_self _ hnod2]

/-- C1 witness: the agreement holds at the two concrete two-entry mappings
of `describe_map_order_counterexample`, which are permutations of each
other with distinct keys. -/
theorem describe_map_perm_agree_witness :
    ([(PyKey.s "a", PyVal.num 1), (.s "b", .num 2)].Perm
      [(PyKey.s "b", PyVal.num 2), (.s "a", .num 1)]) ∧
    (([(PyKey.s "a", PyVal.num 1), (.s "b", .num 2)].map
        (fun kv => kv.1.pyStr)).Nodup) ∧
    mapDescribeAgreement [(PyKey.s "a", PyVal.num 1), (.s "b", .num 2)]
      [(PyKey.s "b", PyVal.num 2), (.s "a", .num 1)] :=
  ⟨List.Perm.swap _ _ _, by simp [PyKey.pyStr],
   describe_map_perm_agree _ _ (List.Perm.swap _ _ _) (by simp [PyKey.pyStr])⟩

/-- The entries of a mapping value (empty for any non-mapping value). -/
def entriesOf : PyVal → List (PyKey × PyVal)
  | .map es => es
  | _ => []

/-- The `desc` property of a task instance (base.py lines 211-219): the
ParameterSet with the key taskname mapped to the class qualname and the
key inputs mapped to `describe(self.input_descs)` - the described input
mapping. -/
def taskDesc (n : String) (ds : List (PyKey × PyVal)) : PyVal :=
  .map [(.s "taskname", .str n), (.s "inputs", .map (pyDict (describeTEntries ds)))]

/-- The `TaskBase` branch of `describe` (base.py line 383) returns the
task's `desc` property. -/
theorem describeT_task (n : String) (ds : List (PyKey × PyVal)) :
    describeT (.task n ds) = taskDesc n ds := rfl

/-- The embedding property of a nested task description: the enclosing
description is the taskname/inputs record; its inputs record contains, at
the nested input's stringified key, the nested task's own `desc` record;
and replacing the nested task's input descriptors by ones with a different
description changes the enclosing description. -/
def nestedDescEmbedding (bN aN : String) (kk : PyKey)
    (pre post aDs1 aDs2 : List (PyKey × PyVal)) : Prop :=
  describe (.task bN (pre ++ (kk, .task aN aDs1) :: post))
      = some (taskDesc bN (pre ++ (kk, .task aN aDs1) :: post)) ∧
  (PyKey.s kk.pyStr, taskDesc aN aDs1)
      ∈ describeTEntries (pre ++ (kk, .task aN aDs1) :: post) ∧
  alookup (PyKey.s "inputs")
      (entriesOf (taskDesc bN (pre ++ (kk, .task aN aDs1) :: post)))
      = some (.map (describeTEntries (pre ++ (kk, .task aN aDs1) :: post))) ∧
  (taskDesc aN aDs1 ≠ taskDesc aN aDs2 →
    taskDesc bN (pre ++ (kk, .task aN aDs1) :: post)
      ≠ taskDesc bN (pre ++ (kk, .task aN aDs2) :: post))

/-- C3: for a task `B` one of whose input descriptors is the nested task
`A`, with pairwise distinct stringified descriptor keys and no
description-raising value among the descriptors, the canonical description
of `B` embeds the full `desc` record of `A` - the taskname/inputs record
computed recursively from the descriptors of `A` - inside its own inputs
record, and any change to the descriptors of `A` that changes the record
of `A` changes the description of `B`. -/
theorem task_desc_embeds_nested (bN aN : String) (kk : PyKey)
    (pre post aDs1 aDs2 : List (PyKey × PyVal))
    (hnod : ((pre ++ (kk, PyVal.task aN aDs1) :: post).map
        (fun kv => kv.1.pyStr)).Nodup)
    (hok : descFails (.task bN (pre ++ (kk, PyVal.task aN aDs1) :: post)) = false) :
    nestedDescEmbedding bN aN kk pre post aDs1 aDs2 := by
  have hsinj : Function.Injective PyKey.s := fun a b h => by
    cases h
    rfl
  have hkeys : ∀ l : List (PyKey × PyVal),
      (describeTEntries l).map Prod.fst
        = (l.map (fun kv => kv.1.pyStr)).map PyKey.s := fun l => by
    rw [describeTEntries_eq_map]
    simp [List.map_map, Function.comp]
  have hnod1 : ((describeTEntries (pre ++ (kk, PyVal.task aN aDs1) :: post)).map
      Prod.fst).Nodup := by
    rw [hkeys]
    exact hnod.map hsinj
  have hkeq : (pre ++ (kk, PyVal.task aN aDs2) :: post).map (fun kv => kv.1.pyStr)
      = (pre ++ (kk, PyVal.task aN aDs1) :: post).map (fun kv => kv.1.pyStr) := by
    simp
  have hnod2 : ((describeTEntries (pre ++ (kk, PyVal.task aN aDs2) :: post)).map
      Prod.fst).Nodup := by
    rw [hkeys, hkeq]
    exact hnod.map hsinj
  refine ⟨?_, ?_, ?_, ?_⟩
  · simp [describe, hok, describeT_task]
  · rw [describeTEntries_eq_map]
    exact List.mem_map.mpr ⟨(kk, .task aN aDs1), by simp, by rw [describeT_task]⟩
  · simp [taskDesc, entriesOf, alookup, pyDict_eq_self _ hnod1]
  · intro hne heq
    apply hne
    have heq' : pyDict (describeTEntries (pre ++ (kk, PyVal.task aN aDs1) :: post))
        = pyDict (describeTEntries (pre ++ (kk, PyVal.task aN aDs2) :: post)) := by
      simpa [taskDesc] using heq
    rw [pyDict_eq_self _ hnod1, pyDict_eq_self _ hnod2,
      describeTEntries_eq_map, describeTEntries_eq_map] at heq'
    simp only [List.map_append, List.map_cons, List.append_cancel_left_eq,
      List.cons.injEq, Prod.mk.injEq] at heq'
    rw [← describeT_task, ← describeT_task]
    exact heq'.1.2

/-- C3 witness: the embedding property at the concrete tasks - `B` whose
single descriptor `sub` is the task `A` with descriptor `x` mapped to 1,
against the variant of `A` with `x` mapped to 2. -/
theorem task_desc_embeds_nested_witness :
    (([((PyKey.s "sub"), PyVal.task "A" [(.s "x", .num 1)])]).map
        (fun kv => kv.1.pyStr)).Nodup ∧
    descFails (PyVal.task "B" [(.s "sub", .task "A" [(.s "x", .num 1)])]) = false ∧
    nestedDescEmbedding "B" "A" (.s "sub") [] []
      [(PyKey.s "x", PyVal.num 1)] [(PyKey.s "x", PyVal.num 2)] :=
  ⟨by simp, rfl,
   task_desc_embeds_nested "B" "A" (.s "sub") [] [] _ _ (by simp) rfl⟩
